import Mathlib

/-!
Verification development for the ccproxy repository (a single-origin
content-rewriting HTTP proxy).  The JavaScript source (src/index.js and the
three unnamed variants) is shallowly embedded below: JavaScript strings and
buffers are modelled as Lean `String`s (equivalently `List Char`), the
regex-chain rewriting of `rewriteText` / `rewriteHtml` is modelled by an
explicit left-to-right scan-and-replace engine that mirrors the semantics of
JavaScript `String.replace` with a global regex, and the stateful pieces
(response assembly, the node-cache used by `backendFetch`, the `/fetch`
handler) are modelled by explicit state passing.  External collaborators
(zlib, undici, the WHATWG URL parser) are modelled as explicit parameters or
simple executable functions.
-/

set_option maxRecDepth 12000

namespace CCProxy

/-- Character lists stand for JavaScript strings / UTF-8 byte buffers. -/
abbrev Str := List Char

/-- Drop the literal pattern `p` from the front of `s`; `none` if `s` does
not start with `p`. -/
def dropPfx : Str → Str → Option Str
  | [], s => some s
  | _ :: _, [] => none
  | a :: as, b :: bs => if a = b then dropPfx as bs else none

/-- Does `s` start with the literal pattern `p`? -/
def isPfx (p s : Str) : Bool := (dropPfx p s).isSome

/-- Does `pat` occur as a contiguous substring of `s`?  This is JavaScript
`s.includes(pat)`. -/
def infixOfL (pat : Str) : Str → Bool
  | [] => isPfx pat []
  | c :: cs => isPfx pat (c :: cs) || infixOfL pat cs

/-- JavaScript `s.includes(pat)` on `String`. -/
def strIncludes (s pat : String) : Bool := infixOfL pat.data s.data

/-- JavaScript `toLowerCase` (ASCII case folding), character-wise. -/
def strToLower (s : String) : String := String.mk (s.data.map Char.toLower)

/-- One step of JavaScript `String.prototype.replace` with a global regex:
scan left to right; at each position, if the matcher fires, emit the
replacement (computed from the matcher's payload, e.g. the whole match or a
capture group) and continue after the consumed input, otherwise copy one
character.  `fuel` bounds recursion; all matchers used below consume at
least one character, so `fuel := s.length` makes the scan total and exact. -/
def replScan (m : Str → Option (Str × Str)) (repl : Str → Str) :
    Nat → Str → Str
  | _, [] => []
  | 0, s => s
  | fuel + 1, c :: cs =>
    match m (c :: cs) with
    | some (payload, rest) => repl payload ++ replScan m repl fuel rest
    | none => c :: replScan m repl fuel cs

/-- JavaScript `s.replace(regex-g, repl)` via `replScan`. -/
def replaceAllF (m : Str → Option (Str × Str)) (repl : Str → Str)
    (s : Str) : Str :=
  replScan m repl s.length s

/-- Case-insensitive literal prefix test (ASCII case folding, as in a
JavaScript `/i` regex over these ASCII patterns). -/
def dropPfxCI : Str → Str → Option Str
  | [], s => some s
  | _ :: _, [] => none
  | a :: as, b :: bs => if a.toLower = b.toLower then dropPfxCI as bs else none

/-- JavaScript `s.replace(/pat/i, repl)`: replace only the first
(case-insensitive) occurrence, leaving the rest untouched. -/
def replaceFirstCI (pat repl : Str) : Nat → Str → Str
  | _, [] => []
  | 0, s => s
  | fuel + 1, c :: cs =>
    match dropPfxCI pat (c :: cs) with
    | some rest => repl ++ rest
    | none => c :: replaceFirstCI pat repl fuel cs

/-! ## Character classes and URL encoding (JavaScript built-ins) -/

/-- JavaScript regex `\s` (whitespace class). -/
def isJsSpace (c : Char) : Bool :=
  let n := c.toNat
  (9 ≤ n && n ≤ 13) || n == 32 || n == 0xa0 || n == 0x1680 ||
  (0x2000 ≤ n && n ≤ 0x200a) || n == 0x2028 || n == 0x2029 ||
  n == 0x202f || n == 0x205f || n == 0x3000 || n == 0xfeff

/-- Characters matched by `[^\s"'<>]` in the CDN-rewrite regex. -/
def isUrlPathChar (c : Char) : Bool :=
  !(isJsSpace c || c == '"' || c == Char.ofNat 39 || c == '<' || c == '>')

/-- Characters `encodeURIComponent` leaves unescaped. -/
def isUriUnreserved (c : Char) : Bool :=
  (c ≥ 'A' && c ≤ 'Z') || (c ≥ 'a' && c ≤ 'z') || (c ≥ '0' && c ≤ '9') ||
  c == '-' || c == '_' || c == '.' || c == '!' || c == '~' || c == '*' ||
  c == Char.ofNat 39 || c == '(' || c == ')'

/-- UTF-8 bytes of a Unicode scalar value. -/
def utf8Bytes (c : Char) : List Nat :=
  let n := c.toNat
  if n < 0x80 then [n]
  else if n < 0x800 then [0xc0 + n / 64, 0x80 + n % 64]
  else if n < 0x10000 then
    [0xe0 + n / 4096, 0x80 + (n / 64) % 64, 0x80 + n % 64]
  else
    [0xf0 + n / 262144, 0x80 + (n / 4096) % 64, 0x80 + (n / 64) % 64,
     0x80 + n % 64]

/-- Upper-case hex digit of a value below 16. -/
def hexDigitU (n : Nat) : Char :=
  if n < 10 then Char.ofNat (48 + n) else Char.ofNat (65 + n - 10)

/-- Percent-escape of one byte, e.g. `%2F`. -/
def pctByte (b : Nat) : Str := ['%', hexDigitU (b / 16), hexDigitU (b % 16)]

/-- JavaScript `encodeURIComponent` on a character list. -/
def encodeURIComponentL (s : Str) : Str :=
  (s.map fun c =>
    if isUriUnreserved c then [c]
    else ((utf8Bytes c).map pctByte).flatten).flatten

/-! ## The rewrite rules of `rewriteText` (src/index.js lines 98-146) -/

def PROXY_PREFIX : String := "/cookieclicker"

def originPrefPatS : Str := "https://orteil.dashnet.org/cookieclicker".data
def originPrefPatH : Str := "http://orteil.dashnet.org/cookieclicker".data
def originPatS : Str := "https://orteil.dashnet.org".data
def originPatH : Str := "http://orteil.dashnet.org".data
def dashnetPatS : Str := "https://dashnet.org".data
def dashnetPatH : Str := "http://dashnet.org".data

/-- Matcher for an alternation of two literal patterns (the greedy `s?` of
`https?` makes the longer, `https`, variant try first). -/
def matchAlt2 (p1 p2 : Str) (s : Str) : Option (Str × Str) :=
  match dropPfx p1 s with
  | some r => some (p1, r)
  | none =>
    match dropPfx p2 s with
    | some r => some (p2, r)
    | none => none

/-- Host alternation of the CDN-rewrite regex, in source order. -/
def cdnHosts : List Str :=
  ["ajax.googleapis.com".data, "fonts.googleapis.com".data,
   "fonts.gstatic.com".data, "cdn.jsdelivr.net".data,
   "cdnjs.cloudflare.com".data]

def firstHostMatch : List Str → Str → Option (Str × Str)
  | [], _ => none
  | h :: hs, s =>
    match dropPfx h s with
    | some r => some (h, r)
    | none => firstHostMatch hs s

/-- Matcher for `https?://(ajax…|…|cdnjs\.cloudflare\.com)(\/[^\s"'<>]*)`
starting from a fixed scheme.  Payload is the whole match. -/
def matchCdnFrom (scheme : Str) (s : Str) : Option (Str × Str) :=
  match dropPfx scheme s with
  | none => none
  | some r1 =>
    match firstHostMatch cdnHosts r1 with
    | none => none
    | some (h, r2) =>
      match r2 with
      | '/' :: r3 =>
        some (scheme ++ h ++ '/' :: r3.takeWhile isUrlPathChar,
              r3.dropWhile isUrlPathChar)
      | _ => none

def cdnMatcher (s : Str) : Option (Str × Str) :=
  match matchCdnFrom "https://".data s with
  | some r => some r
  | none => matchCdnFrom "http://".data s

/-- Replacement `(m) => "/fetch?url=" + encodeURIComponent(m)`. -/
def fetchRepl (m : Str) : Str := "/fetch?url=".data ++ encodeURIComponentL m

/-- Greedy `[^"]*` up to the closing double quote: the text before the first
`"` together with what follows it, or `none` when no `"` remains. -/
def spanToDQuote : Str → Option (Str × Str)
  | [] => none
  | '"' :: rest => some ([], rest)
  | c :: rest =>
    match spanToDQuote rest with
    | some (a, b) => some (c :: a, b)
    | none => none

/-- Matcher for `\s<attr>"[^"]*"` where `attr` is `integrity="` or
`crossorigin="` (the SRI-stripping rules). -/
def attrStripMatcher (attr : Str) (s : Str) : Option (Str × Str) :=
  match s with
  | [] => none
  | c :: rest =>
    if isJsSpace c then
      match dropPfx attr rest with
      | none => none
      | some r2 =>
        match spanToDQuote r2 with
        | none => none
        | some (a, b) => some (c :: attr ++ a ++ ['"'], b)
    else none

def proxyRepl : Str := PROXY_PREFIX.data

/-- Rules 1 and 2 of `rewriteText`: absolute origin URLs (with and without
the `/cookieclicker` path) are replaced by the proxy prefix. -/
def rewriteOriginAbs (s : Str) : Str :=
  let s1 := replaceAllF (matchAlt2 originPrefPatS originPrefPatH)
    (fun _ => proxyRepl) s
  replaceAllF (matchAlt2 originPatS originPatH) (fun _ => proxyRepl) s1

/-- The safety script injected before `</head>` by `rewriteText`
(src/index.js lines 115-142), with `${PROXY_PREFIX}` interpolated. -/
def safetyScript : String :=
  "\n  <script>\n  (function()\x7b\n    const PROXY = \"/cookieclicker\";\n    const ORIG_HOST = \"orteil.dashnet.org\";\n    // override simple location changes\n    const origAssign = window.location.assign;\n    const origReplace = window.location.replace;\n    window.location.assign = function(u)\x7b try \x7b if(typeof u === \x27string\x27 && u.includes(ORIG_HOST)) u = u.replace(/https?:\\/\\/orteil\\.dashnet\\.org/g, PROXY); \x7d catch(e)\x7b\x7d return origAssign.call(this, u); \x7d;\n    window.location.replace = function(u)\x7b try \x7b if(typeof u === \x27string\x27 && u.includes(ORIG_HOST)) u = u.replace(/https?:\\/\\/orteil\\.dashnet\\.org/g, PROXY); \x7d catch(e)\x7b\x7d return origReplace.call(this, u); \x7d;\n    const origOpen = window.open;\n    window.open = function(u, n, o)\x7b try \x7b if(typeof u === \x27string\x27 && u.includes(ORIG_HOST)) u = u.replace(/https?:\\/\\/orteil\\.dashnet\\.org/g, PROXY); \x7d catch(e)\x7b\x7d return origOpen.call(this, u, n, o); \x7d;\n    // patch fetch to rewrite origin usage\n    const origFetch = window.fetch;\n    window.fetch = function(input, init)\x7b\n      try \x7b\n        const url = (typeof input === \x27string\x27) ? input : input.url;\n        if (url && url.includes(ORIG_HOST)) \x7b\n          const newUrl = url.replace(/https?:\\/\\/orteil\\.dashnet\\.org/g, PROXY);\n          if (typeof input === \x27string\x27) input = newUrl;\n          else input = new Request(newUrl, input);\n        \x7d\n      \x7d catch(e)\x7b\x7d\n      return origFetch.call(this, input, init);\n    \x7d;\n  \x7d)();\n  </script>\n  "

/-- The Content Rewriter `rewriteText` of src/index.js (lines 98-146):
origin-URL rewriting, CDN rewriting through `/fetch`, SRI attribute
stripping, and safety-script injection before the first `</head>`. -/
def rewriteText (bodyStr : String) : String :=
  let s := rewriteOriginAbs bodyStr.data
  let s := replaceAllF (matchAlt2 dashnetPatS dashnetPatH)
    (fun _ => proxyRepl) s
  let s := replaceAllF cdnMatcher fetchRepl s
  let s := replaceAllF (attrStripMatcher "integrity=\"".data) (fun _ => []) s
  let s := replaceAllF (attrStripMatcher "crossorigin=\"".data)
    (fun _ => []) s
  let s := if infixOfL "</head>".data s then
      replaceFirstCI "</head>".data (safetyScript.data ++ "</head>".data)
        s.length s
    else s
  String.mk s

/-! ## The rewrite rules of `rewriteHtml` (src/unnamed/part_001 lines 63-118) -/

/-- JavaScript regex line terminators (which `.` does not match). -/
def isLineTerm (c : Char) : Bool :=
  c == '\n' || c == '\r' || c.toNat == 0x2028 || c.toNat == 0x2029

/-- The quote class `["']`. -/
def isQuoteChar (c : Char) : Bool := c == '"' || c == Char.ofNat 39

/-- Lazy `(.*?)["']`: the characters before the first quote character, that
quote, and the remaining input; fails when a line terminator or the end of
input comes first. -/
def spanToQuote : Str → Option (Str × Char × Str)
  | [] => none
  | c :: rest =>
    if isQuoteChar c then some ([], c, rest)
    else if isLineTerm c then none
    else
      match spanToQuote rest with
      | some (a, q, b) => some (c :: a, q, b)
      | none => none

/-- Matcher for `<attr>["']\/\/(.*?)["']` where `attr` is `src=` or `href=`
(the protocol-relative rules of `rewriteHtml`).  Payload is the capture
group (the host-and-path after `//`). -/
def attrProtRelMatcher (attr : Str) (s : Str) : Option (Str × Str) :=
  match dropPfx attr s with
  | none => none
  | some r1 =>
    match r1 with
    | [] => none
    | q :: r2 =>
      if isQuoteChar q then
        match dropPfx "//".data r2 with
        | none => none
        | some r3 =>
          match spanToQuote r3 with
          | some (g1, _, rest) => some (g1, rest)
          | none => none
      else none

/-- Replacement `` (m, g1) => `src="/fetch?url=${encodeURIComponent(url)}"` ``
with `url = "https://" + g1`. -/
def srcProtRelRepl (g1 : Str) : Str :=
  "src=\"/fetch?url=".data ++ encodeURIComponentL ("https://".data ++ g1) ++
    ['"']

/-- The analogous replacement for the `href` rule. -/
def hrefProtRelRepl (g1 : Str) : Str :=
  "href=\"/fetch?url=".data ++ encodeURIComponentL ("https://".data ++ g1) ++
    ['"']

/-- The in-page script injected before `</head>` by `rewriteHtml`
(src/unnamed/part_001 lines 92-112), with `${PROXY_PREFIX}` interpolated. -/
def injectionScript : String :=
  "\n  <!-- proxied by your Railway proxy -->\n  <script>\n    // rewrite fetch/XHR targets in-page (best-effort)\n    (function()\x7b\n      const base = \"/cookieclicker\";\n      // patch fetch\n      const origFetch = window.fetch;\n      window.fetch = function(input, init)\x7b\n        try \x7b\n          const url = (typeof input === \"string\") ? input : input.url;\n          if (url && url.includes(\"orteil.dashnet.org\")) \x7b\n            const newUrl = url.replace(/https?:\\/\\/orteil\\.dashnet\\.org/g, base);\n            return origFetch.call(this, newUrl, init);\n          \x7d\n        \x7d catch(e)\x7b\x7d\n        return origFetch.call(this, input, init);\n      \x7d;\n    \x7d)();\n  </script>\n  "

/-- The Content Rewriter variant `rewriteHtml` of src/unnamed/part_001
(lines 63-118): origin-URL rewriting, CDN rewriting through `/fetch`, SRI
attribute stripping, protocol-relative `src`/`href` rewriting through
`/fetch`, and unconditional injection before the first `</head>`. -/
def rewriteHtml (body : String) : String :=
  let s := rewriteOriginAbs body.data
  let s := replaceAllF cdnMatcher fetchRepl s
  let s := replaceAllF (attrStripMatcher "integrity=\"".data) (fun _ => []) s
  let s := replaceAllF (attrStripMatcher "crossorigin=\"".data)
    (fun _ => []) s
  let s := replaceAllF (attrProtRelMatcher "src=".data) srcProtRelRepl s
  let s := replaceAllF (attrProtRelMatcher "href=".data) hrefProtRelRepl s
  let s := replaceFirstCI "</head>".data
    (injectionScript.data ++ "</head>".data) s.length s
  String.mk s

/-! ## Challenge detection -/

/-- The Challenge Detector `isCloudflareChallengeStatus` of
src/unnamed/part_002 (lines 24-34). -/
def isCloudflareChallengeStatus (status : Nat) (bodyStr : String) : Bool :=
  if status = 0 then false
  else if status = 503 || status = 429 then true
  else if bodyStr = "" then false
  else
    let s := strToLower bodyStr
    strIncludes s "__cf_chl_rt_tk" || strIncludes s "cf_chl_" ||
    strIncludes s "cf-browser-verification" ||
    strIncludes s "ddos protection" ||
    strIncludes s "checking your browser before accessing"

/-- The inline challenge check `isCF` of src/index.js (lines 185-186). -/
def isCF (statusCode : Nat) (bodyStr : String) : Bool :=
  let lower := strToLower bodyStr
  statusCode == 503 || strIncludes lower "__cf_chl_rt_tk" ||
  strIncludes lower "cf-browser-verification" ||
  strIncludes lower "checking your browser before accessing"

/-! ## Response interception pipeline (src/index.js lines 163-229)

Buffers are modelled as `String`s over their UTF-8 decoding (the byte
length of a buffer is the UTF-8 byte size of the string); the zlib codecs
are external collaborators, modelled as explicit function parameters where
a decompression that would throw returns `none`. -/

/-- The zlib collaborator: three decompressors (which may fail) and three
compressors. -/
structure Zlib where
  gunzip : String → Option String
  inflate : String → Option String
  brotliDecompress : String → Option String
  gzip : String → String
  deflate : String → String
  brotliCompress : String → String

/-- An upstream response as captured by the Response Interceptor: status
code, headers (names already lower-cased, as Node delivers them), and the
raw body bytes. -/
structure UpResp where
  statusCode : Nat
  headers : List (String × String)
  body : String

/-- The response written to the client: status code, the headers set via
`res.setHeader` (a case-insensitive map), and the body passed to
`res.end`. -/
structure ClientResp where
  statusCode : Nat
  headers : String → Option String
  body : String

/-- The empty header map of a fresh `res`. -/
def noHeaders : String → Option String := fun _ => none

/-- `res.setHeader(k, v)`: case-insensitive set-or-replace. -/
def setH (h : String → Option String) (k v : String) :
    String → Option String :=
  fun q => if strToLower q = strToLower k then some v else h q

/-- `Object.entries(proxyRes.headers).forEach(([k, v]) => …)` with a skip
predicate on the lower-cased name, as in the header-copy loops. -/
def copyHeaders (h0 : String → Option String)
    (hs : List (String × String)) (skip : String → Bool) :
    String → Option String :=
  hs.foldl (fun h p => if skip (strToLower p.1) then h else setH h p.1 p.2) h0

/-- Exact-key object access `headers[k] || ""` on upstream headers. -/
def hGet (hs : List (String × String)) (k : String) : String :=
  match hs.find? (fun p => p.1 = k) with
  | some p => p.2
  | none => ""

/-- The decode step (src/index.js lines 169-177): decompress according to
the declared content-encoding, falling back to the raw buffer when the
decompressor throws or the encoding is absent/unknown. -/
def decodeBody (z : Zlib) (enc : String) (buffer : String) : String :=
  if enc = "gzip" then (z.gunzip buffer).getD buffer
  else if enc = "deflate" then (z.inflate buffer).getD buffer
  else if enc = "br" then (z.brotliDecompress buffer).getD buffer
  else buffer

/-- The re-encode step (src/index.js lines 200-203). -/
def encodeBody (z : Zlib) (enc : String) (outStr : String) : String :=
  if enc = "gzip" then z.gzip outStr
  else if enc = "deflate" then z.deflate outStr
  else if enc = "br" then z.brotliCompress outStr
  else outStr

/-- The textual content-type test of src/index.js line 182. -/
def isTextualCtype (ctype : String) : Bool :=
  strIncludes ctype "text/html" || strIncludes ctype "javascript" ||
  strIncludes ctype "css" || strIncludes ctype "application/json" ||
  strIncludes ctype "text/plain"

/-- `proxyRes.statusCode || 200`. -/
def or200 (n : Nat) : Nat := if n = 0 then 200 else n

/-- `(proxyRes.headers["content-encoding"] || "").toLowerCase()`. -/
def upEnc (up : UpResp) : String := strToLower (hGet up.headers "content-encoding")

/-- `(proxyRes.headers["content-type"] || "").toLowerCase()`. -/
def upCtype (up : UpResp) : String := strToLower (hGet up.headers "content-type")

/-- The decoded body of an upstream response. -/
def upDecoded (z : Zlib) (up : UpResp) : String :=
  decodeBody z (upEnc up) up.body

/-- The challenge branch of `onProxyRes` (src/index.js lines 188-195):
forward the original response — copy every header, re-set the
content-encoding when one was declared, and send the raw buffer. -/
def challengeResp (up : UpResp) : ClientResp :=
  let h := copyHeaders noHeaders up.headers (fun _ => false)
  let h := if upEnc up ≠ "" then setH h "content-encoding" (upEnc up) else h
  ⟨or200 up.statusCode, h, up.body⟩

/-- The rewritten-and-re-encoded output buffer of the text branch
(src/index.js lines 198-203). -/
def textOutBuf (z : Zlib) (up : UpResp) : String :=
  encodeBody z (upEnc up) (rewriteText (upDecoded z up))

/-- The normal text branch of `onProxyRes` (src/index.js lines 197-215):
copy headers except content-length / content-security-policy /
x-frame-options, set the recomputed content-length, re-set
content-encoding when declared, and send the re-encoded buffer. -/
def textResp (z : Zlib) (up : UpResp) : ClientResp :=
  let h := copyHeaders noHeaders up.headers fun lk =>
    lk = "content-length" || lk = "content-security-policy" ||
    lk = "x-frame-options"
  let h := setH h "content-length" (toString (textOutBuf z up).utf8ByteSize)
  let h := if hGet up.headers "content-encoding" ≠ "" then
      setH h "content-encoding" (hGet up.headers "content-encoding")
    else h
  ⟨or200 up.statusCode, h, textOutBuf z up⟩

/-- The binary branch of `onProxyRes` (src/index.js lines 218-224): copy
headers except content-length and send the raw buffer. -/
def binResp (up : UpResp) : ClientResp :=
  ⟨or200 up.statusCode,
   copyHeaders noHeaders up.headers (fun lk => lk = "content-length"),
   up.body⟩

/-- The `onProxyRes` handler of src/index.js (lines 163-229), after the
body has been buffered: decode, challenge check, rewrite, re-encode, and
response assembly. -/
def onProxyRes (z : Zlib) (up : UpResp) : ClientResp :=
  if isTextualCtype (upCtype up) then
    if isCF up.statusCode (upDecoded z up) then challengeResp up
    else textResp z up
  else binResp up

/-- Last value in an upstream header list satisfying a predicate (what a
`forEach` of `res.setHeader` calls leaves behind for a given name). -/
def lastVal (pred : String × String → Bool) :
    List (String × String) → Option String
  | [] => none
  | p :: t =>
    match lastVal pred t with
    | some v => some v
    | none => if pred p then some p.2 else none

/-! ## decodeURIComponent (JavaScript built-in, ECMA-262 Decode) -/

/-- Value of a hex digit. -/
def hexVal (c : Char) : Option Nat :=
  if '0' ≤ c ∧ c ≤ '9' then some (c.toNat - 48)
  else if 'a' ≤ c ∧ c ≤ 'f' then some (c.toNat - 87)
  else if 'A' ≤ c ∧ c ≤ 'F' then some (c.toNat - 55)
  else none

/-- Maximal run of `%HH` escapes at the front of the input, as a byte list;
fails (`URIError`) when a `%` is not followed by two hex digits. -/
def grabPctRun : Nat → Str → Option (List Nat × Str)
  | fuel + 1, '%' :: a :: b :: rest =>
    match hexVal a, hexVal b with
    | some ha, some hb =>
      match grabPctRun fuel rest with
      | some (bs, r) => some ((16 * ha + hb) :: bs, r)
      | none => none
    | _, _ => none
  | _, '%' :: _ :: [] => none
  | _, '%' :: [] => none
  | 0, '%' :: _ => none
  | _, s => some ([], s)

/-- Strict UTF-8 decoding of a byte run (rejecting stray continuation
bytes, overlong forms, surrogates and values above U+10FFFF), as the
ECMA-262 Decode algorithm requires. -/
def utf8Decode : Nat → List Nat → Option Str
  | _, [] => some []
  | 0, _ => none
  | fuel + 1, b :: bs =>
    if b < 0x80 then
      match utf8Decode fuel bs with
      | some cs => some (Char.ofNat b :: cs)
      | none => none
    else if b < 0xc2 then none
    else if b < 0xe0 then
      match bs with
      | b2 :: bs2 =>
        if 0x80 ≤ b2 ∧ b2 < 0xc0 then
          match utf8Decode fuel bs2 with
          | some cs => some (Char.ofNat ((b - 0xc0) * 64 + (b2 - 0x80)) :: cs)
          | none => none
        else none
      | [] => none
    else if b < 0xf0 then
      match bs with
      | b2 :: b3 :: bs3 =>
        let lo2 : Nat := if b = 0xe0 then 0xa0 else 0x80
        let hi2 : Nat := if b = 0xed then 0xa0 else 0xc0
        if lo2 ≤ b2 ∧ b2 < hi2 ∧ 0x80 ≤ b3 ∧ b3 < 0xc0 then
          match utf8Decode fuel bs3 with
          | some cs =>
            some (Char.ofNat ((b - 0xe0) * 4096 + (b2 - 0x80) * 64 +
              (b3 - 0x80)) :: cs)
          | none => none
        else none
      | _ => none
    else if b < 0xf5 then
      match bs with
      | b2 :: b3 :: b4 :: bs4 =>
        let lo2 : Nat := if b = 0xf0 then 0x90 else 0x80
        let hi2 : Nat := if b = 0xf4 then 0x90 else 0xc0
        if lo2 ≤ b2 ∧ b2 < hi2 ∧ 0x80 ≤ b3 ∧ b3 < 0xc0 ∧
            0x80 ≤ b4 ∧ b4 < 0xc0 then
          match utf8Decode fuel bs4 with
          | some cs =>
            some (Char.ofNat ((b - 0xf0) * 262144 + (b2 - 0x80) * 4096 +
              (b3 - 0x80) * 64 + (b4 - 0x80)) :: cs)
          | none => none
        else none
      | _ => none
    else none

/-- Worker for `decodeURIComponentOpt`. -/
def decodeChars : Nat → Str → Option Str
  | _, [] => some []
  | 0, _ => none
  | fuel + 1, '%' :: cs =>
    match grabPctRun (cs.length + 1) ('%' :: cs) with
    | none => none
    | some (bytes, rest) =>
      match utf8Decode bytes.length bytes with
      | none => none
      | some decoded =>
        match decodeChars fuel rest with
        | some tail => some (decoded ++ tail)
        | none => none
  | fuel + 1, c :: cs =>
    match decodeChars fuel cs with
    | some tail => some (c :: tail)
    | none => none

/-- Modelled collaborator: JavaScript `decodeURIComponent`; `none` when it
would throw a `URIError`. -/
def decodeURIComponentOpt (s : String) : Option String :=
  match decodeChars s.data.length s.data with
  | some cs => some (String.mk cs)
  | none => none

/-! ## URL parsing (WHATWG URL, external collaborator) -/

/-- The pieces of a parsed URL that the `/fetch` handler uses. -/
structure URLModel where
  scheme : String
  hostname : String
deriving Repr, DecidableEq

def isAlpha (c : Char) : Bool := (c ≥ 'a' && c ≤ 'z') || (c ≥ 'A' && c ≤ 'Z')

def isSchemeChar (c : Char) : Bool :=
  isAlpha c || (c ≥ '0' && c ≤ '9') || c == '+' || c == '-' || c == '.'

/-- Hostname inside an authority component: after the last `@`, before any
`:port`. -/
def hostFromAuthority (auth : Str) : Str :=
  ((auth.reverse.takeWhile (fun c => c != '@')).reverse).takeWhile
    (fun c => c != ':')

/-- Modelled collaborator: the WHATWG `URL` constructor, reduced to what
the handler uses (absolute-URL validation and hostname extraction);
`none` when the constructor would throw.  Simplification: only
`scheme://…` inputs yield a hostname; other scheme-prefixed inputs parse
with an empty hostname (as e.g. `mailto:` URLs do). -/
def parseURL (s : String) : Option URLModel :=
  match s.data with
  | [] => none
  | c :: rest =>
    if isAlpha c then
      let schemeRest := rest.takeWhile isSchemeChar
      let after := rest.dropWhile isSchemeChar
      match after with
      | ':' :: r2 =>
        let scheme := String.mk ((c :: schemeRest).map Char.toLower)
        match r2 with
        | '/' :: '/' :: r3 =>
          let auth := r3.takeWhile fun d => d != '/' && d != '?' && d != '#'
          let host := hostFromAuthority auth
          if host = [] then none
          else some ⟨scheme, String.mk (host.map Char.toLower)⟩
        | _ => some ⟨scheme, ""⟩
      | _ => none
    else none

/-! ## Fetch Gateway (src/index.js lines 59-95 and 237-260) -/

/-- The allow-list of src/index.js lines 59-67. -/
def ALLOWED_HOSTS : List String :=
  ["orteil.dashnet.org", "dashnet.org", "ajax.googleapis.com",
   "fonts.googleapis.com", "fonts.gstatic.com", "cdn.jsdelivr.net",
   "cdnjs.cloudflare.com"]

/-- What `backendFetch` returns: `{ statusCode, headers, bodyBuffer }`. -/
structure NetResp where
  statusCode : Nat
  headers : List (String × String)
  bodyBuffer : String
deriving Repr, DecidableEq

/-- A node-cache entry (value plus insertion time, in seconds). -/
structure CacheEntry where
  value : NetResp
  insertedAt : Nat
deriving Repr, DecidableEq

abbrev CacheState := List (String × CacheEntry)

/-- `stdTTL: 60 * 60` of the NodeCache instance (seconds). -/
def CACHE_TTL : Nat := 60 * 60

/-- `cache.get(ck)` at time `now`: a hit only while the entry is within its
TTL (node-cache evicts lazily on lookup). -/
def cacheGet (c : CacheState) (k : String) (now : Nat) : Option NetResp :=
  match c.find? (fun p => p.1 = k) with
  | some p => if now ≤ p.2.insertedAt + CACHE_TTL then some p.2.value else none
  | none => none

/-- `cache.set(ck, out)` at time `now`. -/
def cacheSet (c : CacheState) (k : String) (v : NetResp) (now : Nat) :
    CacheState :=
  (k, ⟨v, now⟩) :: c.filter (fun p => p.1 != k)

/-- The cache-storing decision of `backendFetch` (src/index.js line 91):
`!opts.noCache && (content-type includes "image" || cache-control includes
"max-age")`. -/
def cacheDecision (noCache : Bool) (r : NetResp) : Bool :=
  !noCache && (strIncludes (hGet r.headers "content-type") "image" ||
               strIncludes (hGet r.headers "cache-control") "max-age")

/-- `backendFetch` (src/index.js lines 69-95): cache lookup, outbound
request via the `net` collaborator, and the cache-storing decision.  The
third component counts outbound network calls. -/
def backendFetch (net : String → NetResp) (noCache : Bool) (url : String)
    (c : CacheState) (now : Nat) : NetResp × CacheState × Nat :=
  let ck := "fetch:" ++ url
  let hit : Option NetResp := if noCache then none else cacheGet c ck now
  match hit with
  | some v => (v, c, 0)
  | none =>
    let out := net url
    if cacheDecision noCache out then (out, cacheSet c ck out now, 1)
    else (out, c, 1)

/-- Outcome of the `/fetch` route: a written response, or an exception that
escapes the handler. -/
inductive FetchOut where
  | resp (status : Nat) (headers : List (String × String)) (body : String)
  | thrown
deriving Repr, DecidableEq

/-- Header filtering of the `/fetch` handler (src/index.js lines 249-252):
content-security-policy, x-frame-options and set-cookie are deleted. -/
def fetchOutHeaders (hs : List (String × String)) : List (String × String) :=
  hs.filter fun p =>
    p.1 != "content-security-policy" && p.1 != "x-frame-options" &&
    p.1 != "set-cookie"

/-- The `/fetch` route handler (src/index.js lines 237-260).  `raw` is
`req.query.url` (`none` when absent, and `!raw` is also true for the empty
string).  `decodeURIComponent` runs before the `try` block begins, so a
`URIError` escapes the handler as `FetchOut.thrown`; a throw from the `URL`
constructor is caught and answered 502. -/
def fetchHandler (net : String → NetResp) (c : CacheState) (now : Nat)
    (raw : Option String) : FetchOut × CacheState × Nat :=
  match raw with
  | none => (.resp 400 [] "missing url", c, 0)
  | some r =>
    if r = "" then (.resp 400 [] "missing url", c, 0)
    else
      match decodeURIComponentOpt r with
      | none => (.thrown, c, 0)
      | some url =>
        match parseURL url with
        | none => (.resp 502 [] "bad gateway", c, 0)
        | some u =>
          if ALLOWED_HOSTS.contains u.hostname then
            let r3 := backendFetch net false url c now
            (.resp r3.1.statusCode (fetchOutHeaders r3.1.headers)
              r3.1.bodyBuffer, r3.2.1, r3.2.2)
          else (.resp 403 [] "host not allowed", c, 0)

/-! ## Concrete collaborators and inputs used in witnesses and
counterexamples -/

/-- Identity zlib collaborator (decompression always succeeds and is the
identity), for concrete inputs whose encoding does not matter. -/
def zlibId : Zlib := ⟨some, some, some, id, id, id⟩

/-- A zlib collaborator whose decompressors always throw (corrupt streams)
and whose compressors tag their input, so re-compression is visible. -/
def zlibTag : Zlib :=
  ⟨fun _ => none, fun _ => none, fun _ => none,
   fun s => "GZ:" ++ s, fun s => "DF:" ++ s, fun s => "BR:" ++ s⟩

/-- A challenge response (status 503) carrying the headers the claim C3
talks about. -/
def upChallenge : UpResp :=
  ⟨503,
   [("content-type", "text/html"),
    ("content-security-policy", "default-src"),
    ("x-frame-options", "DENY"),
    ("set-cookie", "__cf_bm=token")],
   "checking your browser before accessing the site"⟩

/-- A text response declared gzip whose bytes do not decompress. -/
def upDecodeFail : UpResp :=
  ⟨200, [("content-encoding", "gzip"), ("content-type", "text/html")],
   "see https://orteil.dashnet.org"⟩

/-- A small text response with an upstream content-length of 999. -/
def upText : UpResp :=
  ⟨200,
   [("content-type", "text/html"), ("content-encoding", "gzip"),
    ("content-length", "999")],
   "hello"⟩

/-- A network collaborator answering with an image content-type. -/
def netImage : String → NetResp :=
  fun _ => ⟨200, [("content-type", "image/png")], "PNGBYTES"⟩

/-- An HTML body with an absolute reference to the origin's prefixed
path and a head section. -/
def bodyC1 : String :=
  "<head></head><a href=\"https://orteil.dashnet.org/cookieclicker/main.js\">"

/-- A body with a protocol-relative `src` reference. -/
def bodyC9 : String := "<img src=\"//fonts.gstatic.com/a.woff\">"

/-! ## Helper lemmas -/

theorem setH_same (h : String → Option String) (k v q : String)
    (hq : strToLower q = strToLower k) : setH h k v q = some v := by
  simp [setH, hq]

theorem setH_other (h : String → Option String) (k v q : String)
    (hq : strToLower q ≠ strToLower k) : setH h k v q = h q := by
  simp [setH, hq]

/-- Evaluating a header-copy fold at a name: the last upstream entry with
that (case-insensitive) name that the skip predicate lets through, else
whatever the accumulator held. -/
theorem copyHeaders_eval (hs : List (String × String))
    (h0 : String → Option String) (skip : String → Bool) (q : String) :
    copyHeaders h0 hs skip q =
      match lastVal
          (fun p => !skip (strToLower p.1) && (strToLower q == strToLower p.1)) hs with
      | some v => some v
      | none => h0 q := by
  induction hs generalizing h0 with
  | nil => rfl
  | cons p t ih =>
    show copyHeaders (if skip (strToLower p.1) then h0 else setH h0 p.1 p.2) t skip q = _
    rw [ih]
    cases hl : lastVal
        (fun p => !skip (strToLower p.1) && (strToLower q == strToLower p.1)) t with
    | some v => simp [lastVal, hl]
    | none =>
      simp only [lastVal, hl]
      by_cases hsk : skip (strToLower p.1)
      · simp [hsk]
      · by_cases hq : strToLower q = strToLower p.1
        · simp [hsk, setH, hq]
        · simp [hsk, setH, hq]

/-! ## Generic facts about the scan-and-replace engine -/

theorem replScan_nil (m : Str → Option (Str × Str)) (repl : Str → Str)
    (fuel : Nat) : replScan m repl fuel [] = [] := by
  cases fuel <;> rfl

theorem replScan_cons_some {m : Str → Option (Str × Str)} {repl : Str → Str}
    {fuel : Nat} {c : Char} {cs payload rest : Str}
    (h : m (c :: cs) = some (payload, rest)) :
    replScan m repl (fuel + 1) (c :: cs) =
      repl payload ++ replScan m repl fuel rest := by
  simp [replScan, h]

theorem replScan_cons_none {m : Str → Option (Str × Str)} {repl : Str → Str}
    {fuel : Nat} {c : Char} {cs : Str} (h : m (c :: cs) = none) :
    replScan m repl (fuel + 1) (c :: cs) = c :: replScan m repl fuel cs := by
  simp [replScan, h]

theorem dropPfx_some_length : ∀ {p s r : Str}, dropPfx p s = some r →
    s.length = p.length + r.length := by
  intro p
  induction p with
  | nil =>
    intro s r h
    cases h
    simp
  | cons a as ih =>
    intro s r h
    cases s with
    | nil => cases h
    | cons b bs =>
      simp only [dropPfx] at h
      split at h
      · have := ih h
        simp [this]
        omega
      · cases h

theorem matchAlt2_some {p1 p2 s mt rest : Str}
    (h : matchAlt2 p1 p2 s = some (mt, rest)) :
    (mt = p1 ∧ dropPfx p1 s = some rest) ∨
    (mt = p2 ∧ dropPfx p2 s = some rest) := by
  unfold matchAlt2 at h
  cases h1 : dropPfx p1 s with
  | some r =>
    rw [h1] at h
    simp only [Option.some.injEq, Prod.mk.injEq] at h
    refine Or.inl ⟨h.1.symm, ?_⟩
    rw [h.2]
  | none =>
    rw [h1] at h
    cases h2 : dropPfx p2 s with
    | some r =>
      rw [h2] at h
      simp only [Option.some.injEq, Prod.mk.injEq] at h
      refine Or.inr ⟨h.1.symm, ?_⟩
      rw [h.2]
    | none => rw [h2] at h; cases h

theorem matchAlt2_none {p1 p2 s : Str} (h : matchAlt2 p1 p2 s = none) :
    dropPfx p1 s = none ∧ dropPfx p2 s = none := by
  unfold matchAlt2 at h
  cases h1 : dropPfx p1 s with
  | some r => rw [h1] at h; cases h
  | none =>
    cases h2 : dropPfx p2 s with
    | some r => rw [h1, h2] at h; cases h
    | none => exact ⟨rfl, rfl⟩

theorem isPfx_nil (s : Str) : isPfx [] s = true := rfl

theorem isPfx_cons {a b : Char} {q' bs : Str} :
    isPfx (a :: q') (b :: bs) = true ↔ a = b ∧ isPfx q' bs = true := by
  simp only [isPfx, dropPfx]
  split
  · simp_all
  · simp_all

theorem isPfx_cons_nil (a : Char) (q' : Str) :
    isPfx (a :: q') [] = false := rfl

/-- An occurrence of `q` at the front of `r ++ t` pins down the first
`r.length` characters of `q`. -/
theorem isPfx_take_of_append : ∀ {q r t : Str},
    isPfx q (r ++ t) = true → isPfx (q.take r.length) r = true := by
  intro q r
  induction r generalizing q with
  | nil => intro t _; simp [isPfx_nil]
  | cons a r' ih =>
    intro t h
    cases q with
    | nil => simp [isPfx_nil]
    | cons b q' =>
      rw [List.cons_append, isPfx_cons] at h
      obtain ⟨hb, h2⟩ := h
      rw [List.length_cons, List.take_succ_cons, isPfx_cons]
      exact ⟨hb, ih h2⟩

/-! ## Claim C10 -/

/-- Claim C10: a present but malformed `url` query parameter (the single
character `%`) makes `decodeURIComponent` throw before the handler's
`try`/`catch` begins, so the `/fetch` handler answers with none of the
specified responses (neither 400 nor 403 nor 502): the exception escapes,
and no outbound call is made. -/
theorem c10_fetch_malformed_url_throws (net : String → NetResp)
    (c : CacheState) (now : Nat) :
    fetchHandler net c now (some "%") = (FetchOut.thrown, c, 0) := by
  have hd : decodeURIComponentOpt "%" = none := by decide
  simp [fetchHandler, hd]

/-! ## Claim C2 -/

/-- Claim C2 counterexample: on status 200 with body "DDoS protection by
SomeVendor", the Challenge Detector returns `true`, although the status is
neither 503 nor 429 and the body contains none of the four marker classes
the claim lists (challenge token, challenge class, browser verification,
"checking your browser"); the claim predicts `false` here. -/
theorem c2_counterexample :
    isCloudflareChallengeStatus 200 "DDoS protection by SomeVendor" = true ∧
    strIncludes (strToLower "DDoS protection by SomeVendor")
      "__cf_chl_rt_tk" = false ∧
    strIncludes (strToLower "DDoS protection by SomeVendor")
      "cf_chl_" = false ∧
    strIncludes (strToLower "DDoS protection by SomeVendor")
      "cf-browser-verification" = false ∧
    strIncludes (strToLower "DDoS protection by SomeVendor")
      "checking your browser before accessing" = false := by
  decide

/-- Claim C2 (amended): for every nonzero status code, the Challenge
Detector returns true iff the status is 503 or 429, or the lower-cased
body contains one of *five* markers: the challenge-token marker
`__cf_chl_rt_tk`, the challenge-class marker `cf_chl_`, the
browser-verification marker `cf-browser-verification`, the DDoS-protection
marker `ddos protection`, or the phrase `checking your browser before
accessing`.  (A zero/absent status code returns false regardless of the
body.) -/
theorem c2_challenge_detector_spec (status : Nat) (body : String)
    (h : status ≠ 0) :
    isCloudflareChallengeStatus status body = true ↔
      (status = 503 ∨ status = 429 ∨
       strIncludes (strToLower body) "__cf_chl_rt_tk" = true ∨
       strIncludes (strToLower body) "cf_chl_" = true ∨
       strIncludes (strToLower body) "cf-browser-verification" = true ∨
       strIncludes (strToLower body) "ddos protection" = true ∨
       strIncludes (strToLower body) "checking your browser before accessing"
         = true) := by
  by_cases h503 : status = 503
  · simp [isCloudflareChallengeStatus, h, h503]
  by_cases h429 : status = 429
  · simp [isCloudflareChallengeStatus, h, h429, h503]
  by_cases hbe : body = ""
  · subst hbe
    have hfalse : isCloudflareChallengeStatus status "" = false := by
      simp [isCloudflareChallengeStatus, h, h503, h429]
    rw [hfalse]
    constructor
    · intro hcon; cases hcon
    · rintro (hx | hx | hx | hx | hx | hx | hx)
      · exact absurd hx h503
      · exact absurd hx h429
      all_goals (exfalso; revert hx; decide)
  · simp only [isCloudflareChallengeStatus, if_neg h, if_neg hbe]
    rw [if_neg (by simp [h503, h429])]
    simp only [Bool.or_eq_true]
    constructor
    · rintro (((hx | hx) | hx) | hx) <;> tauto
    · rintro (hx | hx | hx | hx | hx | hx | hx) <;> tauto

/-- Claim C2 witness: the amended characterization applied at status 503
with an empty body. -/
theorem c2_challenge_detector_spec_witness :
    isCloudflareChallengeStatus 503 "" = true ↔
      ((503 : Nat) = 503 ∨ (503 : Nat) = 429 ∨
       strIncludes (strToLower "") "__cf_chl_rt_tk" = true ∨
       strIncludes (strToLower "") "cf_chl_" = true ∨
       strIncludes (strToLower "") "cf-browser-verification" = true ∨
       strIncludes (strToLower "") "ddos protection" = true ∨
       strIncludes (strToLower "")
         "checking your browser before accessing" = true) :=
  c2_challenge_detector_spec 503 "" (by decide)

/-! ## Claim C7 -/

/-- Claim C7: a `/fetch` request whose decoded `url` parameter parses to a
hostname outside the allow-list is answered 403 ("host not allowed"), the
cache is untouched, and `backendFetch` is never invoked (zero outbound
network calls). -/
theorem c7_fetch_disallowed_host_403 (net : String → NetResp)
    (c : CacheState) (now : Nat) (raw url : String) (u : URLModel)
    (hd : decodeURIComponentOpt raw = some url)
    (hp : parseURL url = some u)
    (hh : ALLOWED_HOSTS.contains u.hostname = false) :
    fetchHandler net c now (some raw) =
      (.resp 403 [] "host not allowed", c, 0) := by
  have hne : raw ≠ "" := by
    intro he
    subst he
    rw [show decodeURIComponentOpt "" = some "" from rfl] at hd
    have hu : url = "" := (Option.some.injEq _ _).mp hd.symm
    subst hu
    rw [show parseURL "" = none from rfl] at hp
    cases hp
  have hh2 : u.hostname ∉ ALLOWED_HOSTS := by simpa using hh
  simp [fetchHandler, hne, hd, hp, hh2]

/-- Claim C7 witness: the theorem applied at the disallowed URL
`http://evil.example.com/x`. -/
theorem c7_fetch_disallowed_host_403_witness :
    fetchHandler netImage [] 0 (some "http://evil.example.com/x") =
      (.resp 403 [] "host not allowed", [], 0) :=
  c7_fetch_disallowed_host_403 netImage [] 0 "http://evil.example.com/x"
    "http://evil.example.com/x" ⟨"http", "evil.example.com"⟩
    (by decide) (by decide) (by decide)

/-! ## Claim C8 -/

/-- Looking a key up right after `cache.set` hits while within the TTL. -/
theorem cacheGet_cacheSet_same (c : CacheState) (k : String) (v : NetResp)
    (now t : Nat) (h : t ≤ now + CACHE_TTL) :
    cacheGet (cacheSet c k v now) k t = some v := by
  simp [cacheGet, cacheSet, List.find?, h]

/-- Claim C8: a `backendFetch` result is stored in the cache iff caching is
enabled for the call (`noCache` unset) and the response qualifies as
cacheable (content-type containing "image" or cache-control containing
"max-age"); consequently two fetches of the same URL within the one-hour
TTL perform exactly one outbound network call in total when the first
response is cacheable, the second call being served from the cache. -/
theorem c8_cache_store_iff_and_single_call (net : String → NetResp)
    (url : String) (c : CacheState) (now now2 : Nat)
    (hmiss : cacheGet c ("fetch:" ++ url) now = none)
    (hT : now2 ≤ now + CACHE_TTL) :
    (∀ noCache : Bool,
      cacheGet (backendFetch net noCache url c now).2.1 ("fetch:" ++ url)
          now = some (net url) ↔
        (noCache = false ∧ cacheDecision noCache (net url) = true)) ∧
    (backendFetch net false url c now).2.2 = 1 ∧
    (cacheDecision false (net url) = true →
      (backendFetch net false url (backendFetch net false url c now).2.1
          now2).2.2 = 0 ∧
      (backendFetch net false url (backendFetch net false url c now).2.1
          now2).1 = (backendFetch net false url c now).1) := by
  refine ⟨?_, ?_, ?_⟩
  · intro noCache
    cases noCache with
    | true =>
      have hc : cacheDecision true (net url) = false := by
        simp [cacheDecision]
      simp [backendFetch, hc, hmiss]
    | false =>
      by_cases hdec : cacheDecision false (net url) = true
      · simp only [backendFetch, if_neg (by simp : ¬(false = true)), hmiss,
          hdec, if_true]
        simp [cacheGet_cacheSet_same c _ (net url) now now
          (Nat.le_add_right now CACHE_TTL), hdec]
      · simp [backendFetch, hmiss, hdec]
  · by_cases hdec : cacheDecision false (net url) = true <;>
      simp [backendFetch, hmiss, hdec]
  · intro hdec
    have h1 : backendFetch net false url c now =
        (net url, cacheSet c ("fetch:" ++ url) (net url) now, 1) := by
      simp [backendFetch, hmiss, hdec]
    rw [h1]
    have h2 : cacheGet (cacheSet c ("fetch:" ++ url) (net url) now)
        ("fetch:" ++ url) now2 = some (net url) :=
      cacheGet_cacheSet_same c _ (net url) now now2 hT
    simp [backendFetch, h2]

/-- Claim C8 witness: the theorem applied to an image response fetched
twice (at times 0 and 10) with an initially empty cache. -/
theorem c8_cache_store_iff_and_single_call_witness :
    (∀ noCache : Bool,
      cacheGet (backendFetch netImage noCache "https://fonts.gstatic.com/a"
          [] 0).2.1 ("fetch:" ++ "https://fonts.gstatic.com/a") 0 =
          some (netImage "https://fonts.gstatic.com/a") ↔
        (noCache = false ∧
         cacheDecision noCache (netImage "https://fonts.gstatic.com/a")
           = true)) ∧
    (backendFetch netImage false "https://fonts.gstatic.com/a" [] 0).2.2
      = 1 ∧
    (cacheDecision false (netImage "https://fonts.gstatic.com/a") = true →
      (backendFetch netImage false "https://fonts.gstatic.com/a"
        (backendFetch netImage false "https://fonts.gstatic.com/a" [] 0).2.1
          10).2.2 = 0 ∧
      (backendFetch netImage false "https://fonts.gstatic.com/a"
        (backendFetch netImage false "https://fonts.gstatic.com/a" [] 0).2.1
          10).1 =
        (backendFetch netImage false "https://fonts.gstatic.com/a" [] 0).1) :=
  c8_cache_store_iff_and_single_call netImage "https://fonts.gstatic.com/a"
    [] 0 10 (by decide) (by decide)

/-- Character-list equality as a Boolean whose evaluation is shallow (the
`&&` short-circuits keep reduction iterative on long concrete strings). -/
def eqChars : Str → Str → Bool
  | [], [] => true
  | [], _ :: _ => false
  | _ :: _, [] => false
  | a :: as, b :: bs => a == b && eqChars as bs

theorem eqChars_eq : ∀ {s t : Str}, eqChars s t = true → s = t := by
  intro s
  induction s with
  | nil => intro t h; cases t with
    | nil => rfl
    | cons b bs => cases h
  | cons a as ih =>
    intro t h
    cases t with
    | nil => cases h
    | cons b bs =>
      have h2 := h
      simp only [eqChars, Bool.and_eq_true, beq_iff_eq] at h2
      rw [h2.1, ih h2.2]

theorem eqChars_refl : ∀ s : Str, eqChars s s = true := by
  intro s
  induction s with
  | nil => rfl
  | cons a as ih => simp [eqChars, ih]

theorem eqChars_ne {s t : Str} (h : eqChars s t = false) : s ≠ t := by
  intro he
  subst he
  rw [eqChars_refl s] at h
  cases h

/-- String equality from the shallow Boolean check. -/
theorem strEqv (s t : String) (h : eqChars s.data t.data = true) : s = t :=
  congrArg String.mk (eqChars_eq h)

/-- String inequality from the shallow Boolean check. -/
theorem strNeqv (s t : String) (h : eqChars s.data t.data = false) :
    s ≠ t := by
  intro he
  exact eqChars_ne h (congrArg String.data he)

/-! ## Claim C1: elimination of absolute origin URLs -/

/-- No nonempty suffix of either origin-URL pattern begins like the
replacement `/cookieclicker`, so no occurrence can straddle from a
replacement into the following text. -/
theorem origin_tails_no_straddle :
    ∀ q ∈ (originPatS.tails ++ originPatH.tails),
      q = [] ∨ isPfx (q.take proxyRepl.length) proxyRepl = false := by
  decide

/-- Occurrences transfer back through the origin-URL scan: a nonempty
suffix `q` of either origin pattern that starts the scan output already
started the scan input. -/
theorem origin_suffix_transfer : ∀ (fuel : Nat) (s q : Str),
    (q <:+ originPatS ∨ q <:+ originPatH) → q ≠ [] → s.length ≤ fuel →
    isPfx q (replScan (matchAlt2 originPatS originPatH)
      (fun _ => proxyRepl) fuel s) = true →
    isPfx q s = true := by
  intro fuel
  induction fuel with
  | zero =>
    intro s q hq hne hlen h
    have hs : s = [] := List.length_eq_zero.mp (Nat.le_zero.mp hlen)
    subst hs
    rw [replScan_nil] at h
    cases q with
    | nil => exact absurd rfl hne
    | cons a as =>
      rw [isPfx_cons_nil] at h
      exact absurd h Bool.false_ne_true
  | succ f ih =>
    intro s q hq hne hlen h
    cases s with
    | nil =>
      rw [replScan_nil] at h
      cases q with
      | nil => exact absurd rfl hne
      | cons a as =>
        rw [isPfx_cons_nil] at h
        exact absurd h Bool.false_ne_true
    | cons c cs =>
      cases hm : matchAlt2 originPatS originPatH (c :: cs) with
      | some pr =>
        obtain ⟨mt, rest⟩ := pr
        rw [replScan_cons_some hm] at h
        exfalso
        have h2 : isPfx q (proxyRepl ++ replScan
            (matchAlt2 originPatS originPatH) (fun _ => proxyRepl) f rest)
            = true := h
        have hs := isPfx_take_of_append h2
        have hmem : q ∈ originPatS.tails ++ originPatH.tails := by
          rcases hq with hq | hq
          · exact List.mem_append.mpr (Or.inl ((List.mem_tails _ _).mpr hq))
          · exact List.mem_append.mpr (Or.inr ((List.mem_tails _ _).mpr hq))
        rcases origin_tails_no_straddle q hmem with he | hf
        · exact hne he
        · rw [hf] at hs
          exact Bool.false_ne_true hs
      | none =>
        rw [replScan_cons_none hm] at h
        cases q with
        | nil => exact absurd rfl hne
        | cons b q' =>
          rw [isPfx_cons] at h
          obtain ⟨hb, h2⟩ := h
          cases q' with
          | nil =>
            rw [isPfx_cons]
            exact ⟨hb, isPfx_nil _⟩
          | cons b2 q2 =>
            have hq' : (b2 :: q2) <:+ originPatS ∨
                (b2 :: q2) <:+ originPatH := by
              rcases hq with hq | hq
              · exact Or.inl ((List.suffix_cons b (b2 :: q2)).trans hq)
              · exact Or.inr ((List.suffix_cons b (b2 :: q2)).trans hq)
            have hlen2 : cs.length ≤ f := by
              have hx : cs.length + 1 ≤ f + 1 := by simpa using hlen
              omega
            have hres := ih cs (b2 :: q2) hq' (by simp) hlen2 h2
            rw [isPfx_cons]
            exact ⟨hb, hres⟩

/-- Prepending characters different from the pattern's head cannot create
an occurrence of the pattern. -/
theorem infixOfL_append_left : ∀ {h0 : Char} {Q r t : Str},
    r.all (fun a => !(a == h0)) = true →
    infixOfL (h0 :: Q) (r ++ t) = infixOfL (h0 :: Q) t := by
  intro h0 Q r
  induction r with
  | nil => intro t _; rfl
  | cons a r' ih =>
    intro t hr
    rw [List.all_cons, Bool.and_eq_true] at hr
    obtain ⟨ha, hr'⟩ := hr
    have hane : ¬ (h0 = a) := by
      intro he
      subst he
      simp at ha
    rw [List.cons_append]
    show (isPfx (h0 :: Q) (a :: (r' ++ t)) || infixOfL (h0 :: Q) (r' ++ t))
      = _
    have hfst : isPfx (h0 :: Q) (a :: (r' ++ t)) = false := by
      simp [isPfx, dropPfx, hane]
    rw [hfst, Bool.false_or, ih hr']

/-- After the bare-origin rewrite scan, no occurrence of either absolute
origin-URL pattern remains anywhere in the output. -/
theorem origin_scan_eliminates : ∀ (fuel : Nat) (s P : Str),
    (P = originPatS ∨ P = originPatH) → s.length ≤ fuel →
    infixOfL P (replScan (matchAlt2 originPatS originPatH)
      (fun _ => proxyRepl) fuel s) = false := by
  intro fuel
  induction fuel with
  | zero =>
    intro s P hP hlen
    have hs : s = [] := List.length_eq_zero.mp (Nat.le_zero.mp hlen)
    subst hs
    rw [replScan_nil]
    rcases hP with h | h <;> subst h <;> decide
  | succ f ih =>
    intro s P hP hlen
    cases s with
    | nil =>
      rw [replScan_nil]
      rcases hP with h | h <;> subst h <;> decide
    | cons c cs =>
      cases hm : matchAlt2 originPatS originPatH (c :: cs) with
      | some pr =>
        obtain ⟨mt, rest⟩ := pr
        rw [replScan_cons_some hm]
        have hrest : rest.length ≤ f := by
          have hcons : cs.length + 1 ≤ f + 1 := by simpa using hlen
          rcases matchAlt2_some hm with ⟨_, hd⟩ | ⟨_, hd⟩
          · have hl := dropPfx_some_length hd
            have hpos : 0 < originPatS.length := by decide
            simp only [List.length_cons] at hl
            omega
          · have hl := dropPfx_some_length hd
            have hpos : 0 < originPatH.length := by decide
            simp only [List.length_cons] at hl
            omega
        have hout := ih rest P hP hrest
        show infixOfL P (proxyRepl ++ replScan
          (matchAlt2 originPatS originPatH) (fun _ => proxyRepl) f rest)
          = false
        rcases hP with h | h <;> subst h
        · rw [show originPatS = 'h' :: originPatS.tail from rfl,
            infixOfL_append_left (by decide)]
          exact hout
        · rw [show originPatH = 'h' :: originPatH.tail from rfl,
            infixOfL_append_left (by decide)]
          exact hout
      | none =>
        rw [replScan_cons_none hm]
        have hlen2 : cs.length ≤ f := by
          have hx : cs.length + 1 ≤ f + 1 := by simpa using hlen
          omega
        show (isPfx P (c :: replScan (matchAlt2 originPatS originPatH)
            (fun _ => proxyRepl) f cs) ||
          infixOfL P (replScan (matchAlt2 originPatS originPatH)
            (fun _ => proxyRepl) f cs)) = false
        rw [ih cs P hP hlen2, Bool.or_false]
        cases hpp : isPfx P (c :: replScan (matchAlt2 originPatS originPatH)
            (fun _ => proxyRepl) f cs) with
        | false => rfl
        | true =>
          exfalso
          obtain ⟨hd1, hd2⟩ := matchAlt2_none hm
          rcases hP with h | h <;> subst h
          · have hcons : isPfx ('h' :: originPatS.tail)
                (c :: replScan (matchAlt2 originPatS originPatH)
                  (fun _ => proxyRepl) f cs) = true := hpp
            rw [isPfx_cons] at hcons
            obtain ⟨hb, hrest⟩ := hcons
            have htr := origin_suffix_transfer f cs originPatS.tail
              (Or.inl ⟨['h'], rfl⟩) (by decide) hlen2 hrest
            have hfull : isPfx ('h' :: originPatS.tail) (c :: cs) = true := by
              rw [isPfx_cons]
              exact ⟨hb, htr⟩
            have hfull2 : (dropPfx originPatS (c :: cs)).isSome = true :=
              hfull
            rw [hd1] at hfull2
            exact Bool.false_ne_true hfull2
          · have hcons : isPfx ('h' :: originPatH.tail)
                (c :: replScan (matchAlt2 originPatS originPatH)
                  (fun _ => proxyRepl) f cs) = true := hpp
            rw [isPfx_cons] at hcons
            obtain ⟨hb, hrest⟩ := hcons
            have htr := origin_suffix_transfer f cs originPatH.tail
              (Or.inr ⟨['h'], rfl⟩) (by decide) hlen2 hrest
            have hfull : isPfx ('h' :: originPatH.tail) (c :: cs) = true := by
              rw [isPfx_cons]
              exact ⟨hb, htr⟩
            have hfull2 : (dropPfx originPatH (c :: cs)).isSome = true :=
              hfull
            rw [hd2] at hfull2
            exact Bool.false_ne_true hfull2

/-- Claim C1 (amended): after the origin-URL rewriting rules of the
Content Rewriter (the first two replace passes of `rewriteText`, i.e.
`rewriteOriginAbs`), the text contains zero occurrences of
`https://orteil.dashnet.org` and of `http://orteil.dashnet.org`: every
absolute origin reference, prefixed path included, has been replaced by
the proxy prefix.  The full `rewriteText` output is *not* free of the
hostname itself, because the injected safety script mentions the
schemeless hostname (see the counterexample) and schemeless mentions in
the body are never rewritten. -/
theorem c1_origin_urls_eliminated (s : String) :
    infixOfL originPatS (rewriteOriginAbs s.data) = false ∧
    infixOfL originPatH (rewriteOriginAbs s.data) = false := by
  unfold rewriteOriginAbs replaceAllF
  constructor
  · exact origin_scan_eliminates _ _ _ (Or.inl rfl) le_rfl
  · exact origin_scan_eliminates _ _ _ (Or.inr rfl) le_rfl

/-! ## Claim C4 -/

/-- Claim C4 counterexample: `rewriteText` is not idempotent.  On the input
`"</head>"` — a body with a closing head tag — applying the rewriter to its
own output changes the string again. -/
theorem c4_counterexample :
    rewriteText (rewriteText "</head>") ≠ rewriteText "</head>" :=
  strNeqv _ _ (by decide)

/-- Claim C4 (amended): `rewriteText` is not idempotent: re-application to
already-rewritten text that contains the closing head tag injects the
safety script a second time (the URL rewrites themselves produce no further
change on this input, but the script-injection rule has no guard against a
prior injection). -/
theorem c4_double_injection :
    rewriteText "</head>" = safetyScript ++ "</head>" ∧
    rewriteText (safetyScript ++ "</head>") =
      safetyScript ++ (safetyScript ++ "</head>") :=
  ⟨strEqv _ _ (by decide), strEqv _ _ (by decide)⟩

/-! ## Claim C1 counterexample -/

/-- Claim C1 counterexample: `bodyC1` contains an absolute reference to the
origin's prefixed path, yet the output of `rewriteText` still contains the
origin hostname "orteil.dashnet.org" — the injected safety script itself
mentions it (as its `ORIG_HOST` constant), so the claimed "zero
occurrences" property fails. -/
theorem c1_counterexample :
    strIncludes bodyC1 "https://orteil.dashnet.org/cookieclicker" = true ∧
    strIncludes (rewriteText bodyC1) "orteil.dashnet.org" = true := by
  decide

/-! ## Claim C9 counterexample -/

/-- Claim C9 counterexample: `rewriteText` (the Content Rewriter of
src/index.js) has no protocol-relative rule: a `src="//host/path"`
reference passes through unchanged and is not routed through the `/fetch`
endpoint.  (Only the `rewriteHtml` variant of src/unnamed/part_001
rewrites such references.) -/
theorem c9_counterexample :
    rewriteText bodyC9 = bodyC9 ∧
    strIncludes (rewriteText bodyC9) "/fetch?url=" = false :=
  ⟨strEqv _ _ (by decide), by decide⟩

/-! ## Claim C6 -/

/-- Claim C6: for every text payload processed by the rewrite pipeline
(textual content-type, not classified as a challenge), the content-length
header set on the client response equals exactly the decimal byte length
of the recompressed output buffer, and the body written is that buffer —
the upstream content-length is skipped by the header-copy loop and
overwritten by the recomputed value, never reused. -/
theorem c6_content_length_recomputed (z : Zlib) (up : UpResp)
    (ht : isTextualCtype (upCtype up) = true)
    (hcf : isCF up.statusCode (upDecoded z up) = false) :
    (onProxyRes z up).headers "content-length" =
      some (toString (textOutBuf z up).utf8ByteSize) ∧
    (onProxyRes z up).body = textOutBuf z up := by
  have hbranch : onProxyRes z up = textResp z up := by
    simp [onProxyRes, ht, hcf]
  rw [hbranch]
  refine ⟨?_, rfl⟩
  show (if hGet up.headers "content-encoding" ≠ "" then
      setH (setH _ "content-length" (toString (textOutBuf z up).utf8ByteSize))
        "content-encoding" (hGet up.headers "content-encoding")
    else
      setH _ "content-length" (toString (textOutBuf z up).utf8ByteSize))
      "content-length" = _
  by_cases he : hGet up.headers "content-encoding" ≠ ""
  · rw [if_pos he, setH_other _ _ _ _ (by decide), setH_same _ _ _ _ rfl]
  · rw [if_neg he, setH_same _ _ _ _ rfl]

/-- Claim C6 witness: the theorem applied to a gzip text response with
upstream content-length 999 and a tagging compressor. -/
theorem c6_content_length_recomputed_witness :
    (onProxyRes zlibTag upText).headers "content-length" =
      some (toString (textOutBuf zlibTag upText).utf8ByteSize) ∧
    (onProxyRes zlibTag upText).body = textOutBuf zlibTag upText :=
  c6_content_length_recomputed zlibTag upText (by decide) (by decide)

/-! ## Claim C5 -/

/-- Claim C5 counterexample: a text/html response declared gzip whose
bytes fail to decompress is *not* relayed unmodified with rewriting
skipped: the raw bytes are decoded as UTF-8, rewritten (the origin URL in
them becomes the proxy prefix) and re-compressed, so the client body
differs from the raw upstream bytes. -/
theorem c5_counterexample :
    (onProxyRes zlibTag upDecodeFail).body ≠ upDecodeFail.body ∧
    (onProxyRes zlibTag upDecodeFail).body = "GZ:see /cookieclicker" := by
  decide

/-- Claim C5 (amended): when the declared encoding's decompressor throws,
the error is caught (the decoded payload falls back to the raw bytes) and
no error status is surfaced (the upstream status code is relayed); the
raw bytes are relayed unmodified only for non-text content types — for
text content types they are passed through the rewrite-and-recompress
pipeline instead of being relayed as-is. -/
theorem c5_decode_failure_caught (z : Zlib) (up : UpResp)
    (hfail : (upEnc up = "gzip" ∧ z.gunzip up.body = none) ∨
             (upEnc up = "deflate" ∧ z.inflate up.body = none) ∨
             (upEnc up = "br" ∧ z.brotliDecompress up.body = none)) :
    upDecoded z up = up.body ∧
    (onProxyRes z up).statusCode = or200 up.statusCode ∧
    (isTextualCtype (upCtype up) = false →
      (onProxyRes z up).body = up.body) ∧
    (isTextualCtype (upCtype up) = true →
      isCF up.statusCode up.body = false →
      (onProxyRes z up).body =
        encodeBody z (upEnc up) (rewriteText up.body)) := by
  have hdec : upDecoded z up = up.body := by
    rcases hfail with ⟨he, hz⟩ | ⟨he, hz⟩ | ⟨he, hz⟩ <;>
      simp [upDecoded, decodeBody, he, hz]
  refine ⟨hdec, ?_, ?_, ?_⟩
  · unfold onProxyRes
    split
    · split
      · rfl
      · rfl
    · rfl
  · intro hnt
    simp [onProxyRes, hnt, binResp]
  · intro ht hcf
    have hcf2 : isCF up.statusCode (upDecoded z up) = false := by
      rw [hdec]; exact hcf
    have hbranch : onProxyRes z up = textResp z up := by
      simp [onProxyRes, ht, hcf2]
    rw [hbranch]
    show textOutBuf z up = _
    rw [textOutBuf, hdec]

/-- Claim C5 witness: the amended theorem applied to the failing gzip
response `upDecodeFail` with the always-failing decompressor. -/
theorem c5_decode_failure_caught_witness :
    upDecoded zlibTag upDecodeFail = upDecodeFail.body ∧
    (onProxyRes zlibTag upDecodeFail).statusCode =
      or200 upDecodeFail.statusCode ∧
    (isTextualCtype (upCtype upDecodeFail) = false →
      (onProxyRes zlibTag upDecodeFail).body = upDecodeFail.body) ∧
    (isTextualCtype (upCtype upDecodeFail) = true →
      isCF upDecodeFail.statusCode upDecodeFail.body = false →
      (onProxyRes zlibTag upDecodeFail).body =
        encodeBody zlibTag (upEnc upDecodeFail)
          (rewriteText upDecodeFail.body)) :=
  c5_decode_failure_caught zlibTag upDecodeFail (Or.inl ⟨by decide, rfl⟩)

/-! ## Claim C3 -/

/-- Claim C3 counterexample: for a challenge response carrying
content-security-policy and x-frame-options headers, the client response
still carries both — the challenge branch of `onProxyRes` copies every
upstream header and strips nothing, contrary to the claim that CSP and
x-frame-options are removed even on this path. -/
theorem c3_counterexample :
    isCF upChallenge.statusCode (upDecoded zlibId upChallenge) = true ∧
    (onProxyRes zlibId upChallenge).headers "content-security-policy" =
      some "default-src" ∧
    (onProxyRes zlibId upChallenge).headers "x-frame-options" =
      some "DENY" := by
  decide

/-- Claim C3 (amended): for every upstream response the Challenge Detector
classifies as a challenge, the client response carries the original status
code (with 0 defaulting to 200), the original still-compressed body bytes,
and *every* upstream header — set-cookie, content-security-policy and
x-frame-options included: nothing is stripped on this path — with
content-encoding re-set to the lower-cased declared value when one was
present. -/
theorem c3_challenge_relay (z : Zlib) (up : UpResp)
    (ht : isTextualCtype (upCtype up) = true)
    (hcf : isCF up.statusCode (upDecoded z up) = true) :
    (onProxyRes z up).body = up.body ∧
    (onProxyRes z up).statusCode = or200 up.statusCode ∧
    (∀ q : String, strToLower q ≠ "content-encoding" →
      (onProxyRes z up).headers q =
        lastVal (fun p => strToLower q == strToLower p.1) up.headers) ∧
    (upEnc up ≠ "" →
      (onProxyRes z up).headers "content-encoding" = some (upEnc up)) := by
  have hbranch : onProxyRes z up = challengeResp up := by
    simp [onProxyRes, ht, hcf]
  rw [hbranch]
  refine ⟨rfl, rfl, ?_, ?_⟩
  · intro q hq
    show (if upEnc up ≠ "" then
        setH (copyHeaders noHeaders up.headers (fun _ => false))
          "content-encoding" (upEnc up)
      else copyHeaders noHeaders up.headers (fun _ => false)) q = _
    have hcopy : copyHeaders noHeaders up.headers (fun _ => false) q =
        lastVal (fun p => strToLower q == strToLower p.1) up.headers := by
      rw [copyHeaders_eval]
      simp only [Bool.not_false, Bool.true_and]
      cases lastVal (fun p => strToLower q == strToLower p.1) up.headers with
      | some v => rfl
      | none => rfl
    have hq2 : strToLower q ≠ strToLower "content-encoding" := by
      rw [show strToLower "content-encoding" = "content-encoding" from rfl]
      exact hq
    by_cases he : upEnc up ≠ ""
    · rw [if_pos he, setH_other _ _ _ _ hq2, hcopy]
    · rw [if_neg he, hcopy]
  · intro he
    show (if upEnc up ≠ "" then
        setH (copyHeaders noHeaders up.headers (fun _ => false))
          "content-encoding" (upEnc up)
      else copyHeaders noHeaders up.headers (fun _ => false))
        "content-encoding" = _
    rw [if_pos he, setH_same _ _ _ _ rfl]

/-- Claim C3 witness: the amended theorem applied to the concrete
challenge response `upChallenge`, read at its set-cookie header. -/
theorem c3_challenge_relay_witness :
    (onProxyRes zlibId upChallenge).body = upChallenge.body ∧
    (onProxyRes zlibId upChallenge).headers "set-cookie" =
      lastVal (fun p => strToLower "set-cookie" == strToLower p.1)
        upChallenge.headers :=
  ⟨(c3_challenge_relay zlibId upChallenge (by decide) (by decide)).1,
   (c3_challenge_relay zlibId upChallenge (by decide) (by decide)).2.2.1
     "set-cookie" (by decide)⟩

/-! ## Claim C9: the protocol-relative rules of `rewriteHtml` -/

/-- The lazy `(.*?)["']` span finds exactly the quote-free,
line-terminator-free group before the closing quote. -/
theorem spanToQuote_append : ∀ (g1 : Str) (q : Char) (rest : Str),
    isQuoteChar q = true →
    g1.all (fun c => !(isQuoteChar c || isLineTerm c)) = true →
    spanToQuote (g1 ++ q :: rest) = some (g1, q, rest) := by
  intro g1
  induction g1 with
  | nil =>
    intro q rest hq _
    show spanToQuote (q :: rest) = _
    simp [spanToQuote, hq]
  | cons a g ih =>
    intro q rest hq hg
    rw [List.all_cons, Bool.and_eq_true] at hg
    obtain ⟨ha, hg'⟩ := hg
    rw [Bool.not_eq_true', Bool.or_eq_false_iff] at ha
    rw [List.cons_append]
    show spanToQuote (a :: (g ++ q :: rest)) = _
    simp [spanToQuote, ha.1, ha.2, ih q rest hq hg']

/-- The `src` protocol-relative matcher fires on
`src="//<group>"` with the group as payload and nothing left over. -/
theorem srcMatcher_fires (g1 : Str)
    (hg : g1.all (fun c => !(isQuoteChar c || isLineTerm c)) = true) :
    attrProtRelMatcher "src=".data ("src=\"//".data ++ g1 ++ ['"']) =
      some (g1, []) := by
  have hs : spanToQuote (g1 ++ '"' :: []) = some (g1, '"', []) :=
    spanToQuote_append g1 '"' [] (by decide) hg
  show attrProtRelMatcher "src=".data
    ('s' :: 'r' :: 'c' :: '=' :: '"' :: '/' :: '/' :: (g1 ++ ['"'])) = _
  unfold attrProtRelMatcher
  simp only [dropPfx, reduceIte, show isQuoteChar '"' = true from rfl,
    if_true, hs]

/-- Claim C9 (amended): the protocol-relative rewrite exists only in the
`rewriteHtml` variant (src/unnamed/part_001), not in `rewriteText`
(src/index.js).  There, the `src` rule rewrites `src="//host/path"` (for
any quote-free, line-terminator-free host/path) to route through the
local fetch endpoint with the reconstructed `https://` URL URL-encoded in
the query parameter, and e.g. `rewriteHtml` maps the concrete body
`<img src="//fonts.gstatic.com/a.woff">` to
`<img src="/fetch?url=https%3A%2F%2Ffonts.gstatic.com%2Fa.woff">`. -/
theorem c9_protocol_relative_fetch_route :
    (∀ g1 : Str,
      g1.all (fun c => !(isQuoteChar c || isLineTerm c)) = true →
      replaceAllF (attrProtRelMatcher "src=".data) srcProtRelRepl
          ("src=\"//".data ++ g1 ++ ['"']) =
        "src=\"/fetch?url=".data ++
          encodeURIComponentL ("https://".data ++ g1) ++ ['"']) ∧
    rewriteHtml bodyC9 =
      "<img src=\"/fetch?url=https%3A%2F%2Ffonts.gstatic.com%2Fa.woff\">" := by
  constructor
  · intro g1 hg
    have hm := srcMatcher_fires g1 hg
    unfold replaceAllF
    have hlen : ("src=\"//".data ++ g1 ++ ['"']).length = g1.length + 8 := by
      simp
    rw [hlen]
    have hm2 : attrProtRelMatcher "src=".data
        ('s' :: 'r' :: 'c' :: '=' :: '"' :: '/' :: '/' :: (g1 ++ ['"'])) =
        some (g1, []) := hm
    have key : replScan (attrProtRelMatcher "src=".data) srcProtRelRepl
        (g1.length + 7 + 1)
        ('s' :: 'r' :: 'c' :: '=' :: '"' :: '/' :: '/' :: (g1 ++ ['"'])) =
        srcProtRelRepl g1 := by
      rw [replScan_cons_some hm2, replScan_nil, List.append_nil]
    exact key
  · exact strEqv _ _ (by decide)

/-- Claim C9 witness: the protocol-relative `src` rule applied at the
concrete group `fonts.gstatic.com/a.woff`. -/
theorem c9_protocol_relative_fetch_route_witness :
    replaceAllF (attrProtRelMatcher "src=".data) srcProtRelRepl
        ("src=\"//".data ++ "fonts.gstatic.com/a.woff".data ++ ['"']) =
      "src=\"/fetch?url=".data ++
        encodeURIComponentL
          ("https://".data ++ "fonts.gstatic.com/a.woff".data) ++ ['"'] :=
  c9_protocol_relative_fetch_route.1 "fonts.gstatic.com/a.woff".data
    (by decide)

end CCProxy
